import Mathlib

/-!
Shallow embedding of the reputation bot (`src/main.py`).

The SQLite tables are modelled as association lists whose keys are unique
(both tables declare a PRIMARY KEY), timestamps as integer seconds, Python
floats produced by `AVG` as rationals, and Python `round` as round-half-to-even
on rationals. Discord user ids are natural numbers; reputation values are
integers (the `rep` column is a signed SQLite INTEGER).
-/

namespace RepBot

/-- Python `round` to the nearest integer: round-half-to-even on rationals. -/
def pyRound (q : ℚ) : ℤ :=
  let f : ℤ := ⌊q⌋
  if q - f < 1/2 then f
  else if 1/2 < q - f then f + 1
  else if f % 2 = 0 then f else f + 1

/-- Python `int()` on a float/rational: truncation toward zero. -/
def pyInt (q : ℚ) : ℤ :=
  if 0 ≤ q then ⌊q⌋ else ⌈q⌉

/-- Python `round(x, 2)`: round to two decimal places. -/
def round2 (q : ℚ) : ℚ :=
  (pyRound (q * 100) : ℚ) / 100

/-- Keyed lookup in a table, as a `SELECT` on a PRIMARY-KEY column:
the key matches at most one row. -/
def lookupTab {α β : Type} [DecidableEq α] : List (α × β) → α → Option β
  | [], _ => none
  | r :: t, k => if r.1 = k then some r.2 else lookupTab t k

/-- SQL `INSERT ... ON CONFLICT(key) DO UPDATE`: replace the (unique)
conflicting row in place, otherwise append a fresh row. -/
def upsertTab {α β : Type} [DecidableEq α] : List (α × β) → α → β → List (α × β)
  | [], k, v => [(k, v)]
  | r :: t, k, v => if r.1 = k then (k, v) :: t else r :: upsertTab t k v

/-- `add_rep` (src/main.py:70-88): read the current `rep` (0 when the row is
absent), add `amount`, upsert the row, and return the new value together with
the updated table. -/
def add_rep (tbl : List (ℕ × ℤ)) (user_id : ℕ) (amount : ℤ) :
    ℤ × List (ℕ × ℤ) :=
  let new_val := (lookupTab tbl user_id).getD 0 + amount
  (new_val, upsertTab tbl user_id new_val)

/-- `get_rep` (src/main.py:90-96): the stored `rep`, 0 when no row exists. -/
def get_rep (tbl : List (ℕ × ℤ)) (user_id : ℕ) : ℤ :=
  (lookupTab tbl user_id).getD 0

/-- `set_rating` (src/main.py:98-107): upsert on the PRIMARY KEY
`(rater_id, target_id)`. -/
def set_rating (tbl : List ((ℕ × ℕ) × ℤ)) (rater_id target_id : ℕ)
    (rating : ℤ) : List ((ℕ × ℕ) × ℤ) :=
  upsertTab tbl (rater_id, target_id) rating

/-- `get_rating` (src/main.py:109-116): `SELECT AVG(rating), COUNT(*)` over the
target's rows, then `(round(avg, 2), count) if count else (None, 0)`. -/
def get_rating (tbl : List ((ℕ × ℕ) × ℤ)) (target_id : ℕ) : Option ℚ × ℕ :=
  let rows := tbl.filter (fun e => e.1.2 == target_id)
  if rows.length = 0 then (none, 0)
  else (some (round2 (((rows.map (fun e => (e.2 : ℚ))).sum) / (rows.length : ℚ))),
        rows.length)

/-- The ordering used by `get_sorted_rep_items`'s SQL `ORDER BY rep DESC`:
larger `rep` first. -/
def repDesc (a b : ℕ × ℤ) : Prop := b.2 ≤ a.2

instance : DecidableRel repDesc :=
  fun a b => inferInstanceAs (Decidable (b.2 ≤ a.2))

instance : IsTotal (ℕ × ℤ) repDesc := ⟨fun a b => le_total b.2 a.2⟩

instance : IsTrans (ℕ × ℤ) repDesc := ⟨fun _ _ _ h1 h2 => le_trans h2 h1⟩

/-- `get_sorted_rep_items` (src/main.py:118-122):
`SELECT user_id, rep FROM reputation ORDER BY rep DESC`. The query names no
secondary sort key, so rows with equal `rep` stay in storage-scan order; this
is modelled by a stable sort of the stored row list on `rep` alone. -/
def get_sorted_rep_items (tbl : List (ℕ × ℤ)) : List (ℕ × ℤ) :=
  tbl.insertionSort repDesc

/-- `MAX_RATING` (src/main.py:20). -/
def MAX_RATING : ℤ := 5

/-- `PAGE_SIZE` (src/main.py:18). -/
def PAGE_SIZE : ℕ := 10

/-- `MIN_RATING_ACCOUNT_AGE_DAYS` (src/main.py:17). -/
def MIN_RATING_ACCOUNT_AGE_DAYS : ℤ := 10

/-- `render_rating_stars` (src/main.py:131-135):
`rounded = round(avg * 2) / 2; full = int(rounded); empty = MAX_RATING - full;
return "⭐" * full + "☆" * empty`. Python string repetition with a
non-positive count yields the empty string, hence `Int.toNat`. -/
def render_rating_stars (avg : ℚ) : String :=
  let rounded : ℚ := (pyRound (avg * 2) : ℚ) / 2
  let full : ℤ := pyInt rounded
  let empty : ℤ := MAX_RATING - full
  String.mk (List.replicate full.toNat '⭐') ++ String.mk (List.replicate empty.toNat '☆')

/-- `total_pages = max(1, math.ceil(len(items) / PAGE_SIZE))`
(src/main.py:142 and 213). -/
def total_pages (n : ℕ) : ℤ :=
  max 1 (((n + PAGE_SIZE - 1) / PAGE_SIZE : ℕ) : ℤ)

/-- `page = max(0, min(page, total_pages - 1))` (src/main.py:143). -/
def clamp_page (n : ℕ) (page : ℤ) : ℤ :=
  max 0 (min page (total_pages n - 1))

/-- The slice `items[start:end]` with `start = page * PAGE_SIZE`,
`end = start + PAGE_SIZE`, after the clamp of src/main.py:143-151. -/
def page_slice (items : List (ℕ × ℤ)) (page : ℤ) : List (ℕ × ℤ) :=
  (items.drop ((clamp_page items.length page).toNat * PAGE_SIZE)).take PAGE_SIZE

/-- The pagination state of `LeaderboardView` (src/main.py:205-245):
`items`, `page`, `max_pages`. -/
structure LeaderboardView where
  items : List (ℕ × ℤ)
  page : ℤ
  max_pages : ℤ
deriving DecidableEq

/-- `LeaderboardView.__init__` (src/main.py:206-214): page 0,
`max_pages = max(1, math.ceil(len(items) / PAGE_SIZE))`. -/
def LeaderboardView.init (items : List (ℕ × ℤ)) : LeaderboardView :=
  ⟨items, 0, total_pages items.length⟩

/-- `self.previous.disabled = self.page <= 0` (src/main.py:217). -/
def LeaderboardView.previous_disabled (v : LeaderboardView) : Bool :=
  decide (v.page ≤ 0)

/-- `self.next.disabled = self.page >= self.max_pages - 1` (src/main.py:218). -/
def LeaderboardView.next_disabled (v : LeaderboardView) : Bool :=
  decide (v.max_pages - 1 ≤ v.page)

/-- Pressing the `Previous` button (src/main.py:229-236): a disabled button
cannot be pressed; an enabled one decrements `self.page`. -/
def LeaderboardView.press_previous (v : LeaderboardView) : LeaderboardView :=
  if v.previous_disabled then v else ⟨v.items, v.page - 1, v.max_pages⟩

/-- Pressing the `Next` button (src/main.py:238-245): a disabled button
cannot be pressed; an enabled one increments `self.page`. -/
def LeaderboardView.press_next (v : LeaderboardView) : LeaderboardView :=
  if v.next_disabled then v else ⟨v.items, v.page + 1, v.max_pages⟩

/-- The slice of a Discord user the commands read: `id`, `bot`, and the
account age in days that `account_age_days` (src/main.py:128-129) computes
from `created_at`. -/
structure DUser where
  id : ℕ
  bot : Bool
  age_days : ℤ
deriving DecidableEq

/-- The persistent and framework state a command invocation touches:
the two SQLite tables plus the per-command cooldown buckets kept by the
`app_commands.checks.cooldown` decorator, keyed by (command name, user id)
and holding the window-start timestamp. -/
structure BotState where
  reputation : List (ℕ × ℤ)
  ratings : List ((ℕ × ℕ) × ℤ)
  cooldowns : List ((String × ℕ) × ℤ)
deriving DecidableEq

/-- Outcome of a slash-command invocation. -/
inductive CmdResult where
  | onCooldown (remaining : ℤ)
  | invalidTarget
  | accountTooNew
  | ok
deriving DecidableEq

/-- `per` of `@app_commands.checks.cooldown(1, 240)` (src/main.py:265, 282). -/
def COOLDOWN_PER : ℤ := 240

/-- The `checks.cooldown(1, 240)` decorator on `rep`/`norep`: the framework
runs this check before the command callback and it consumes the bucket at
check time (rate 1: allowed iff no bucket or the 240 s window has passed;
on success the window start is set to `now`; a failed check leaves the
bucket as is and reports the remaining wait). -/
def cooldown_check (st : BotState) (cmd : String) (uid : ℕ) (now : ℤ) :
    Option ℤ × BotState :=
  match lookupTab st.cooldowns (cmd, uid) with
  | some w =>
    if w + COOLDOWN_PER < now then
      (none, ⟨st.reputation, st.ratings, upsertTab st.cooldowns (cmd, uid) now⟩)
    else
      (some (COOLDOWN_PER - (now - w)), st)
  | none => (none, ⟨st.reputation, st.ratings, upsertTab st.cooldowns (cmd, uid) now⟩)

/-- The `/rep` command (src/main.py:264-279): cooldown check (decorator,
runs first), then target validation, then `add_rep(member.id, 1)`. -/
def rep_cmd (st : BotState) (now : ℤ) (actor target : DUser) :
    CmdResult × BotState :=
  match cooldown_check st "rep" actor.id now with
  | (some r, st') => (CmdResult.onCooldown r, st')
  | (none, st') =>
    if target.bot || target.id == actor.id then (CmdResult.invalidTarget, st')
    else
      (CmdResult.ok,
       ⟨(add_rep st'.reputation target.id 1).2, st'.ratings, st'.cooldowns⟩)

/-- The `/norep` command (src/main.py:281-296): cooldown check (decorator,
runs first), then target validation, then `add_rep(member.id, -1)`. -/
def norep_cmd (st : BotState) (now : ℤ) (actor target : DUser) :
    CmdResult × BotState :=
  match cooldown_check st "norep" actor.id now with
  | (some r, st') => (CmdResult.onCooldown r, st')
  | (none, st') =>
    if target.bot || target.id == actor.id then (CmdResult.invalidTarget, st')
    else
      (CmdResult.ok,
       ⟨(add_rep st'.reputation target.id (-1)).2, st'.ratings, st'.cooldowns⟩)

/-- The `/rate` command (src/main.py:298-314): target validation, account-age
check, then `set_rating`. There is no cooldown decorator on this command and
its body consults no clock, so no cooldown state exists for it. -/
def rate_cmd (st : BotState) (actor target : DUser) (stars : ℤ) :
    CmdResult × BotState :=
  if target.bot || target.id == actor.id then (CmdResult.invalidTarget, st)
  else if actor.age_days < MIN_RATING_ACCOUNT_AGE_DAYS then
    (CmdResult.accountTooNew, st)
  else
    (CmdResult.ok,
     ⟨st.reputation, set_rating st.ratings actor.id target.id stars, st.cooldowns⟩)

/-- A JSON value as it can occur in the interchange file. -/
inductive JsonVal where
  | int (i : ℤ)
  | obj (rep neg_rep : ℤ)
  | other
deriving DecidableEq

def JsonVal.isObj : JsonVal → Bool
  | .obj _ _ => true
  | _ => false

/-- `exportrep` (src/main.py:341-357): `SELECT user_id, rep FROM reputation`,
then `json.dump({str(uid): rep for uid, rep in rows})` — a JSON object whose
keys are the decimal renderings of the account ids and whose values are the
bare integer `rep` values. -/
def exportrep (tbl : List (ℕ × ℤ)) : List (String × JsonVal) :=
  tbl.map (fun r => (Nat.repr r.1, JsonVal.int r.2))

/-- Value of a decimal digit character, `none` for a non-digit. -/
def digitVal (c : Char) : Option ℕ :=
  if 48 ≤ c.toNat ∧ c.toNat ≤ 57 then some (c.toNat - 48) else none

/-- Left-to-right decimal decoding of a character list. -/
def decodeDigits : ℕ → List Char → Option ℕ
  | acc, [] => some acc
  | acc, c :: cs =>
    match digitVal c with
    | some d => decodeDigits (acc * 10 + d) cs
    | none => none

/-- Parse a JSON-object key back into an account id: a nonempty all-digit
string in decimal. -/
def parseNatKey (s : String) : Option ℕ :=
  if s.data = [] then none else decodeDigits 0 s.data

/-- Modelled from the spec (§6): the import half of the interchange format is
absent from src/ (only `exportrep` exists). Per entry, a bare integer is
legacy `rep` with `neg_rep = 0`, an object carries `rep`/`neg_rep`, anything
else fails to parse. -/
def parseImportVal : JsonVal → Option (ℤ × ℤ)
  | .int i => some (i, 0)
  | .obj r n => some (r, n)
  | .other => none

/-- Modelled from the spec (§6): the import operation is absent from src/.
Each entry whose key and value parse is upserted into the reputation table
(which in src/ has only the single `rep` column, so the parsed `rep` is what
is stored); entries that fail to parse are skipped; the count of entries
successfully applied is reported. -/
def importrep (entries : List (String × JsonVal)) : List (ℕ × ℤ) × ℕ :=
  entries.foldl
    (fun acc e =>
      match parseNatKey e.1, parseImportVal e.2 with
      | some uid, some rv => (upsertTab acc.1 uid rv.1, acc.2 + 1)
      | _, _ => acc)
    ([], 0)

/-- Number of digits of the decimal rendering of `n`. -/
def numDigits (n : ℕ) : ℕ :=
  if _h : n < 10 then 1 else numDigits (n / 10) + 1
termination_by n
decreasing_by exact Nat.div_lt_self (by omega) (by omega)

/-! ## Helper lemmas -/

theorem lookupTab_upsertTab_self {α β : Type} [DecidableEq α]
    (t : List (α × β)) (k : α) (v : β) :
    lookupTab (upsertTab t k v) k = some v := by
  induction t with
  | nil => simp [upsertTab, lookupTab]
  | cons r t ih =>
    by_cases h : r.1 = k
    · simp [upsertTab, lookupTab, h]
    · simp [upsertTab, lookupTab, h, ih]

theorem lookupTab_upsertTab_ne {α β : Type} [DecidableEq α]
    (t : List (α × β)) (k k' : α) (v : β) (h : k' ≠ k) :
    lookupTab (upsertTab t k v) k' = lookupTab t k' := by
  induction t with
  | nil => simp [upsertTab, lookupTab, Ne.symm h]
  | cons r t ih =>
    by_cases hr : r.1 = k
    · subst hr
      simp [upsertTab, lookupTab, Ne.symm h]
    · by_cases hr' : r.1 = k'
      · simp only [upsertTab, if_neg hr]
        simp [lookupTab, hr']
      · simp only [upsertTab, if_neg hr]
        simp [lookupTab, hr', ih]

theorem lookupTab_eq_none_of_not_mem {α β : Type} [DecidableEq α]
    (t : List (α × β)) (k : α) (h : k ∉ t.map Prod.fst) :
    lookupTab t k = none := by
  induction t with
  | nil => rfl
  | cons r t ih =>
    simp only [List.map_cons, List.mem_cons] at h
    push_neg at h
    simp [lookupTab, Ne.symm h.1, ih h.2]

theorem pyRound_nonneg (q : ℚ) (h : 0 ≤ q) : 0 ≤ pyRound q := by
  have hf : (0:ℤ) ≤ ⌊q⌋ := Int.floor_nonneg.mpr h
  simp only [pyRound]
  split_ifs <;> omega

theorem pyRound_le (q : ℚ) (n : ℤ) (h : q ≤ n) : pyRound q ≤ n := by
  have hf : ⌊q⌋ ≤ n := by
    have h2 := Int.floor_le_floor h
    simpa using h2
  simp only [pyRound]
  split_ifs with h1 h2 h3
  · exact hf
  · have hhalf : 1/2 ≤ q - ↑⌊q⌋ := le_of_not_lt h1
    have hlt : (⌊q⌋:ℚ) < (n:ℚ) := by linarith
    have : ⌊q⌋ < n := by exact_mod_cast hlt
    omega
  · exact hf
  · have hhalf : 1/2 ≤ q - ↑⌊q⌋ := le_of_not_lt h1
    have hlt : (⌊q⌋:ℚ) < (n:ℚ) := by linarith
    have : ⌊q⌋ < n := by exact_mod_cast hlt
    omega

theorem mkstr_append_length (l1 l2 : List Char) :
    (String.mk l1 ++ String.mk l2).length = l1.length + l2.length := by
  show (String.mk (l1 ++ l2)).length = _
  simp [String.length]

theorem digitVal_digitChar (d : ℕ) (h : d < 10) :
    digitVal (Nat.digitChar d) = some d := by
  interval_cases d <;> rfl

theorem decodeDigits_toDigitsCore :
    ∀ (n fuel acc : ℕ) (ds : List Char), n < fuel →
      decodeDigits acc (Nat.toDigitsCore 10 fuel n ds) =
        decodeDigits (acc * 10 ^ numDigits n + n) ds := by
  intro n
  induction n using Nat.strong_induction_on with
  | _ n IH =>
    intro fuel acc ds hfuel
    obtain ⟨f, rfl⟩ : ∃ f, fuel = f + 1 := ⟨fuel - 1, by omega⟩
    by_cases h10 : n / 10 = 0
    · have hn10 : n < 10 := by omega
      simp only [Nat.toDigitsCore, h10, if_true]
      simp only [decodeDigits]
      rw [digitVal_digitChar (n % 10) (Nat.mod_lt n (by omega))]
      show decodeDigits (acc * 10 + n % 10) ds = decodeDigits (acc * 10 ^ numDigits n + n) ds
      have hnd : numDigits n = 1 := by
        unfold numDigits
        simp [hn10]
      rw [hnd]
      congr 1
      have hmod : n % 10 = n := Nat.mod_eq_of_lt hn10
      rw [pow_one, hmod]
    · have hge : 10 ≤ n := by omega
      have hdiv_lt : n / 10 < n := Nat.div_lt_self (by omega) (by omega)
      have hlt : n / 10 < f := by omega
      simp only [Nat.toDigitsCore, h10, if_false]
      rw [IH (n / 10) hdiv_lt f acc (Nat.digitChar (n % 10) :: ds) hlt]
      simp only [decodeDigits]
      rw [digitVal_digitChar (n % 10) (Nat.mod_lt n (by omega))]
      show decodeDigits ((acc * 10 ^ numDigits (n / 10) + n / 10) * 10 + n % 10) ds
          = decodeDigits (acc * 10 ^ numDigits n + n) ds
      have hnd : numDigits n = numDigits (n / 10) + 1 := by
        conv_lhs => rw [numDigits]
        simp [Nat.not_lt.mpr hge]
      rw [hnd]
      congr 1
      rw [pow_succ, ← mul_assoc]
      generalize acc * 10 ^ numDigits (n / 10) = Y
      omega

theorem parseNatKey_repr (n : ℕ) : parseNatKey (Nat.repr n) = some n := by
  have hdata : (Nat.repr n).data = Nat.toDigits 10 n := rfl
  have hdec : decodeDigits 0 (Nat.toDigits 10 n) = some n := by
    have h := decodeDigits_toDigitsCore n (n + 1) 0 [] (by omega)
    simpa [Nat.toDigits, decodeDigits] using h
  have hne : (Nat.repr n).data ≠ [] := by
    rw [hdata]
    intro hnil
    rw [hnil] at hdec
    simp only [decodeDigits, Option.some.injEq] at hdec
    rw [← hdec] at hnil
    exact (by decide : Nat.toDigits 10 0 ≠ []) hnil
  have hne2 : Nat.toDigits 10 n ≠ [] := by
    rw [← hdata]
    exact hne
  simp [parseNatKey, hne2, hdata, hdec]

theorem importrep_exportrep (tbl : List (ℕ × ℤ)) :
    importrep (exportrep tbl) = (tbl.foldl (fun a r => upsertTab a r.1 r.2) [], tbl.length) := by
  suffices h : ∀ (acc : List (ℕ × ℤ) × ℕ),
      (tbl.map (fun r => (Nat.repr r.1, JsonVal.int r.2))).foldl
        (fun acc e =>
          match parseNatKey e.1, parseImportVal e.2 with
          | some uid, some rv => (upsertTab acc.1 uid rv.1, acc.2 + 1)
          | _, _ => acc) acc
      = (tbl.foldl (fun a r => upsertTab a r.1 r.2) acc.1, acc.2 + tbl.length) by
    have h2 := h ([], 0)
    simpa [importrep, exportrep] using h2
  induction tbl with
  | nil => intro acc; simp
  | cons r t ih =>
    intro acc
    simp only [List.map_cons, List.foldl_cons]
    rw [parseNatKey_repr]
    simp only [parseImportVal] at ih ⊢
    rw [ih]
    simp only [List.length_cons, List.foldl_cons, Prod.mk.injEq]
    exact ⟨trivial, by omega⟩

theorem get_rep_foldl_upsert :
    ∀ (tbl acc : List (ℕ × ℤ)) (u : ℕ), (tbl.map Prod.fst).Nodup →
      get_rep (tbl.foldl (fun a r => upsertTab a r.1 r.2) acc) u =
        if u ∈ tbl.map Prod.fst then get_rep tbl u else get_rep acc u := by
  intro tbl
  induction tbl with
  | nil => intro acc u _; simp
  | cons r t ih =>
    intro acc u hnd
    simp only [List.map_cons, List.nodup_cons] at hnd
    obtain ⟨hr, hnd⟩ := hnd
    simp only [List.foldl_cons]
    rw [ih _ u hnd]
    by_cases hmem : u ∈ t.map Prod.fst
    · have hne : u ≠ r.1 := fun hh => hr (hh ▸ hmem)
      simp [hmem, hne, get_rep, lookupTab, Ne.symm hne]
    · by_cases heq : u = r.1
      · subst heq
        simp [hmem, get_rep, lookupTab, lookupTab_upsertTab_self]
      · simp [hmem, heq, get_rep, lookupTab, Ne.symm heq,
          lookupTab_upsertTab_ne _ _ _ _ heq]

/-! ## Claim theorems -/

/-- Claim C6 (functional correctness of the rating aggregator on the worked
example): after raters 1, 2, 3 rate target 10 with 5, 3, 4 stars,
`get_rating` reports average 4.00 over 3 votes; a later rating of 1 by
rater 1 overwrites that rater's row (the table still has 3 rows) and the
average is recomputed over \x7b1, 3, 4\x7d as 2.67. -/
theorem c6_rating_scenario :
    get_rating (set_rating (set_rating (set_rating [] 1 10 5) 2 10 3) 3 10 4) 10
      = (some 4, 3) ∧
    get_rating (set_rating (set_rating (set_rating (set_rating [] 1 10 5) 2 10 3) 3 10 4) 1 10 1) 10
      = (some (267/100), 3) ∧
    (set_rating (set_rating (set_rating (set_rating [] 1 10 5) 2 10 3) 3 10 4) 1 10 1).length
      = 3 := by
  have h3 : set_rating (set_rating (set_rating [] 1 10 5) 2 10 3) 3 10 4
      = [((1, 10), 5), ((2, 10), 3), ((3, 10), 4)] := by decide
  have h4 : set_rating [((1, 10), 5), ((2, 10), 3), ((3, 10), 4)] 1 10 1
      = [((1, 10), 1), ((2, 10), 3), ((3, 10), 4)] := by decide
  refine ⟨?_, ?_, ?_⟩
  · rw [h3]
    simp [get_rating]
    norm_num [round2, pyRound]
  · rw [h3, h4]
    simp [get_rating]
    norm_num [round2, pyRound]
  · rw [h3, h4]
    rfl

/-- Claim C7: for a target with no rating rows `get_rating` returns the
distinct no-ratings value `(none, 0)` (and `none` is returned exactly in that
case); with at least one row it returns the mean of the target's rows rounded
to two decimal places, together with the row count. -/
theorem c7_aggregate (tbl : List ((ℕ × ℕ) × ℤ)) (t : ℕ) :
    ((get_rating tbl t).1 = none ↔ tbl.filter (fun e => e.1.2 == t) = []) ∧
    (tbl.filter (fun e => e.1.2 == t) = [] → get_rating tbl t = (none, 0)) ∧
    (tbl.filter (fun e => e.1.2 == t) ≠ [] →
      get_rating tbl t =
        (some (round2 ((((tbl.filter (fun e => e.1.2 == t)).map (fun e => (e.2 : ℚ))).sum) /
            ((tbl.filter (fun e => e.1.2 == t)).length : ℚ))),
         (tbl.filter (fun e => e.1.2 == t)).length)) := by
  by_cases h : tbl.filter (fun e => e.1.2 == t) = []
  · simp [get_rating, h]
  · have hlen : (tbl.filter (fun e => e.1.2 == t)).length ≠ 0 := by
      simpa [List.length_eq_zero] using h
    simp [get_rating, h, hlen]

/-- Witness for C7 at a concrete table: target 99 has no rows and gets
`(none, 0)`; target 10 has one row with 5 stars and gets `(some 5, 1)`. -/
theorem c7_aggregate_witness :
    ([(((1:ℕ), (10:ℕ)), (5:ℤ))].filter (fun e => e.1.2 == 99) = []) ∧
    get_rating [(((1:ℕ), (10:ℕ)), (5:ℤ))] 99 = (none, 0) ∧
    ([(((1:ℕ), (10:ℕ)), (5:ℤ))].filter (fun e => e.1.2 == 10) ≠ []) ∧
    get_rating [(((1:ℕ), (10:ℕ)), (5:ℤ))] 10 = (some 5, 1) := by
  refine ⟨by decide, (c7_aggregate _ 99).2.1 (by decide), by decide, ?_⟩
  have h := (c7_aggregate [(((1:ℕ), (10:ℕ)), (5:ℤ))] 10).2.2 (by decide)
  rw [h]
  norm_num [round2, pyRound]

/-- Counterexample to claim C9: an average of 4.5 does not render as a
distinct 4.5-star glyph string — `int(rounded)` truncates the half away, so
4.5 renders exactly as 4.0 does, as four filled and one empty glyph. -/
theorem c9_counterexample :
    render_rating_stars (9/2) = render_rating_stars 4 ∧
    render_rating_stars 4 = "⭐⭐⭐⭐☆" := by
  have h1 : pyRound ((9:ℚ)/2 * 2) = 9 := by norm_num [pyRound]
  have h2 : pyRound ((4:ℚ) * 2) = 8 := by norm_num [pyRound]
  have h3 : pyInt (((9:ℤ):ℚ)/2) = 4 := by norm_num [pyInt]
  have h4 : pyInt (((8:ℤ):ℚ)/2) = 4 := by norm_num [pyInt]
  constructor
  · simp only [render_rating_stars, h1, h2, h3, h4]
  · simp only [render_rating_stars, h2, h4]
    rfl

/-- Claim C9 as amended: star rendering is a pure function of the average
that rounds to the nearest half unit and then truncates to a whole number of
filled stars, so the glyphs depend only on the truncated half-rounded value
`pyInt (pyRound (avg * 2) / 2)`; any two averages agreeing on that integer
render identically. -/
theorem c9_amended (a b : ℚ)
    (h : pyInt ((pyRound (a * 2) : ℚ) / 2) = pyInt ((pyRound (b * 2) : ℚ) / 2)) :
    render_rating_stars a = render_rating_stars b := by
  simp only [render_rating_stars, h]

/-- Witness for the amended C9 at `a = 9/2`, `b = 4`. -/
theorem c9_amended_witness :
    pyInt ((pyRound ((9:ℚ)/2 * 2) : ℚ) / 2) = pyInt ((pyRound ((4:ℚ) * 2) : ℚ) / 2) ∧
    render_rating_stars (9/2) = render_rating_stars 4 := by
  have h : pyInt ((pyRound ((9:ℚ)/2 * 2) : ℚ) / 2) = pyInt ((pyRound ((4:ℚ) * 2) : ℚ) / 2) := by
    have h1 : pyRound ((9:ℚ)/2 * 2) = 9 := by norm_num [pyRound]
    have h2 : pyRound ((4:ℚ) * 2) = 8 := by norm_num [pyRound]
    rw [h1, h2]
    norm_num [pyInt]
  exact ⟨h, c9_amended (9/2) 4 h⟩

/-- Claim C10: for every average between 0 and 5 the rendered star string has
exactly `MAX_RATING = 5` glyphs (filled plus empty). -/
theorem c10_render_length (avg : ℚ) (h0 : 0 ≤ avg) (h5 : avg ≤ 5) :
    (render_rating_stars avg).length = 5 := by
  have hn0 : 0 ≤ pyRound (avg * 2) := pyRound_nonneg _ (by linarith)
  have hn10 : pyRound (avg * 2) ≤ 10 := pyRound_le _ 10 (by push_cast; linarith)
  have hr0 : (0:ℚ) ≤ (pyRound (avg * 2) : ℚ)/2 := by
    have hc : (0:ℚ) ≤ (pyRound (avg * 2) : ℚ) := by exact_mod_cast hn0
    linarith
  have hfull : pyInt ((pyRound (avg * 2) : ℚ)/2) = ⌊(pyRound (avg * 2) : ℚ)/2⌋ := by
    simp [pyInt, hr0]
  have h1 : 0 ≤ ⌊(pyRound (avg * 2) : ℚ)/2⌋ := Int.floor_nonneg.mpr hr0
  have h2 : ⌊(pyRound (avg * 2) : ℚ)/2⌋ ≤ 5 := by
    have hc : (pyRound (avg * 2) : ℚ) ≤ 10 := by exact_mod_cast hn10
    have hd : (pyRound (avg * 2) : ℚ)/2 ≤ ((5:ℤ):ℚ) := by push_cast; linarith
    have h5' := Int.floor_le_floor hd
    simpa using h5'
  simp only [render_rating_stars, hfull, MAX_RATING]
  rw [mkstr_append_length]
  simp only [List.length_replicate]
  omega

/-- Witness for C10 at `avg = 7/2`. -/
theorem c10_render_length_witness :
    (0:ℚ) ≤ 7/2 ∧ (7:ℚ)/2 ≤ 5 ∧ (render_rating_stars (7/2)).length = 5 :=
  ⟨by norm_num, by norm_num, c10_render_length (7/2) (by norm_num) (by norm_num)⟩

/-- Counterexample to claim C1: the per-account record is not a pair of
non-negative counters — a single `/norep` against a fresh account drives the
lone signed `rep` value to `-1 < 0`. -/
theorem c1_counterexample :
    (norep_cmd ⟨[], [], []⟩ 0 ⟨1, false, 100⟩ ⟨7, false, 100⟩).2.reputation = [(7, -1)] ∧
    get_rep (norep_cmd ⟨[], [], []⟩ 0 ⟨1, false, 100⟩ ⟨7, false, 100⟩).2.reputation 7 < 0 := by
  constructor
  · decide
  · decide

/-- Claim C1 as amended: the record is a single signed counter, policy (a)
without a clamp: a valid `/rep` adds 1 to the target's `rep` and a valid
`/norep` subtracts 1 from it, with no lower bound at zero. -/
theorem c1_amended (st : BotState) (now : ℤ) (actor target : DUser)
    (hbot : target.bot = false) (hne : target.id ≠ actor.id)
    (hcd1 : lookupTab st.cooldowns ("rep", actor.id) = none)
    (hcd2 : lookupTab st.cooldowns ("norep", actor.id) = none) :
    get_rep (rep_cmd st now actor target).2.reputation target.id
      = get_rep st.reputation target.id + 1 ∧
    get_rep (norep_cmd st now actor target).2.reputation target.id
      = get_rep st.reputation target.id - 1 := by
  constructor
  · simp only [rep_cmd, cooldown_check, hcd1]
    simp [hbot, hne, add_rep, get_rep, lookupTab_upsertTab_self]
  · simp only [norep_cmd, cooldown_check, hcd2]
    simp [hbot, hne, add_rep, get_rep, lookupTab_upsertTab_self]
    omega

/-- Witness for the amended C1 on a fresh state. -/
theorem c1_amended_witness :
    ((⟨7, false, 100⟩ : DUser).bot = false) ∧
    ((⟨7, false, 100⟩ : DUser).id ≠ (⟨1, false, 100⟩ : DUser).id) ∧
    lookupTab (BotState.cooldowns ⟨[], [], []⟩) ("rep", 1) = none ∧
    lookupTab (BotState.cooldowns ⟨[], [], []⟩) ("norep", 1) = none ∧
    (get_rep (rep_cmd ⟨[], [], []⟩ 0 ⟨1, false, 100⟩ ⟨7, false, 100⟩).2.reputation 7
        = get_rep (BotState.reputation ⟨[], [], []⟩) 7 + 1 ∧
     get_rep (norep_cmd ⟨[], [], []⟩ 0 ⟨1, false, 100⟩ ⟨7, false, 100⟩).2.reputation 7
        = get_rep (BotState.reputation ⟨[], [], []⟩) 7 - 1) :=
  ⟨rfl, by decide, rfl, rfl,
   c1_amended ⟨[], [], []⟩ 0 ⟨1, false, 100⟩ ⟨7, false, 100⟩ rfl (by decide) rfl rfl⟩

/-- Counterexample to claim C2: two ledgers holding the same records (the two
row lists are permutations of each other) produce differently ordered
leaderboard sequences, because rows tied on `rep` keep their storage-scan
order — the output order is not a function of the record values alone. -/
theorem c2_counterexample :
    List.Perm [((1:ℕ), (5:ℤ)), (2, 5)] [(2, 5), (1, 5)] ∧
    get_sorted_rep_items [(1, 5), (2, 5)] = [(1, 5), (2, 5)] ∧
    get_sorted_rep_items [(2, 5), (1, 5)] = [(2, 5), (1, 5)] ∧
    get_sorted_rep_items [(1, 5), (2, 5)] ≠ get_sorted_rep_items [(2, 5), (1, 5)] := by
  refine ⟨by decide, by decide, by decide, by decide⟩

/-- Claim C2 as amended: the leaderboard sequence is the ledger rows sorted
by `rep` descending and nothing else — it is a permutation of the rows,
sorted for the rep-descending relation; equal-`rep` rows stay in
storage-iteration order (the sort is stable), there is no secondary key. -/
theorem c2_amended (tbl : List (ℕ × ℤ)) :
    (get_sorted_rep_items tbl).Perm tbl ∧
    (get_sorted_rep_items tbl).Sorted repDesc :=
  ⟨List.perm_insertionSort repDesc tbl, List.sorted_insertionSort repDesc tbl⟩

/-- Claim C8: the displayed page is clamped to `[0, total_pages - 1]` for
every snapshot and requested page, and for a 25-account snapshot page 0 shows
rows 1-10, page 2 shows rows 21-25, there are 3 pages, and advancing three
times from page 0 stops at page 2 (the third press is a clamped no-op). -/
theorem c8_pagination (items : List (ℕ × ℤ)) (p : ℤ) :
    (0 ≤ clamp_page items.length p ∧
     clamp_page items.length p ≤ total_pages items.length - 1) ∧
    (items.length = 25 →
      total_pages items.length = 3 ∧
      page_slice items 0 = items.take 10 ∧
      page_slice items 2 = items.drop 20 ∧
      (LeaderboardView.init items).press_next.press_next.press_next.page = 2 ∧
      (LeaderboardView.init items).press_next.press_next.page = 2) := by
  constructor
  · have h1 : (1:ℤ) ≤ total_pages items.length := le_max_left _ _
    have h2 := min_le_right p (total_pages items.length - 1)
    unfold clamp_page
    omega
  · intro h
    have htp : total_pages items.length = 3 := by rw [h]; decide
    have hinit : LeaderboardView.init items = ⟨items, 0, 3⟩ := by
      simp only [LeaderboardView.init, htp]
    have hn1 : (⟨items, 0, 3⟩ : LeaderboardView).press_next = ⟨items, 1, 3⟩ := by
      simp [LeaderboardView.press_next, LeaderboardView.next_disabled]
    have hn2 : (⟨items, 1, 3⟩ : LeaderboardView).press_next = ⟨items, 2, 3⟩ := by
      simp [LeaderboardView.press_next, LeaderboardView.next_disabled]
    have hn3 : (⟨items, 2, 3⟩ : LeaderboardView).press_next = ⟨items, 2, 3⟩ := by
      simp [LeaderboardView.press_next, LeaderboardView.next_disabled]
    refine ⟨htp, ?_, ?_, ?_, ?_⟩
    · have hc : clamp_page items.length 0 = 0 := by rw [h]; decide
      simp [page_slice, hc, PAGE_SIZE]
    · have hc : clamp_page items.length 2 = 2 := by rw [h]; decide
      have hlen : (items.drop 20).length ≤ 10 := by
        simp [List.length_drop, h]
      simp only [page_slice, hc]
      rw [List.take_of_length_le]
      · rfl
      · simpa [PAGE_SIZE] using hlen
    · rw [hinit, hn1, hn2, hn3]
    · rw [hinit, hn1, hn2]

/-- Witness for C8 on a concrete 25-account snapshot and requested page 7. -/
theorem c8_pagination_witness :
    (((List.range 25).map (fun i => (i, (0:ℤ)))).length = 25) ∧
    (0 ≤ clamp_page ((List.range 25).map (fun i => (i, (0:ℤ)))).length 7 ∧
     clamp_page ((List.range 25).map (fun i => (i, (0:ℤ)))).length 7
       ≤ total_pages ((List.range 25).map (fun i => (i, (0:ℤ)))).length - 1) ∧
    (total_pages ((List.range 25).map (fun i => (i, (0:ℤ)))).length = 3 ∧
     page_slice ((List.range 25).map (fun i => (i, (0:ℤ)))) 0
       = ((List.range 25).map (fun i => (i, (0:ℤ)))).take 10 ∧
     page_slice ((List.range 25).map (fun i => (i, (0:ℤ)))) 2
       = ((List.range 25).map (fun i => (i, (0:ℤ)))).drop 20 ∧
     (LeaderboardView.init ((List.range 25).map (fun i => (i, (0:ℤ))))).press_next.press_next.press_next.page = 2 ∧
     (LeaderboardView.init ((List.range 25).map (fun i => (i, (0:ℤ))))).press_next.press_next.page = 2) :=
  ⟨by decide,
   (c8_pagination ((List.range 25).map (fun i => (i, (0:ℤ)))) 7).1,
   (c8_pagination ((List.range 25).map (fun i => (i, (0:ℤ)))) 7).2 (by decide)⟩

/-- Counterexample to claim C4: the `/rate` (feedback) command carries no
cooldown at all — the same actor successfully rates the same target twice in
immediate succession, so no per-(actor, target) window gates a second
submission. -/
theorem c4_counterexample :
    (rate_cmd ⟨[], [], []⟩ ⟨1, false, 100⟩ ⟨2, false, 50⟩ 5).1 = CmdResult.ok ∧
    (rate_cmd (rate_cmd ⟨[], [], []⟩ ⟨1, false, 100⟩ ⟨2, false, 50⟩ 5).2
        ⟨1, false, 100⟩ ⟨2, false, 50⟩ 4).1 = CmdResult.ok := by
  constructor
  · decide
  · decide

/-- Claim C4 as amended: the feedback action is not cooldown-gated; for any
valid actor/target pair every submission succeeds immediately, and a repeat
submission merely overwrites the rater's entry (the upsert of C6). -/
theorem c4_amended (st : BotState) (actor target : DUser) (s1 s2 : ℤ)
    (hbot : target.bot = false) (hne : target.id ≠ actor.id)
    (hage : MIN_RATING_ACCOUNT_AGE_DAYS ≤ actor.age_days) :
    (rate_cmd st actor target s1).1 = CmdResult.ok ∧
    (rate_cmd (rate_cmd st actor target s1).2 actor target s2).1 = CmdResult.ok ∧
    lookupTab (rate_cmd (rate_cmd st actor target s1).2 actor target s2).2.ratings
      (actor.id, target.id) = some s2 := by
  have hlt : ¬ actor.age_days < MIN_RATING_ACCOUNT_AGE_DAYS := not_lt.mpr hage
  refine ⟨?_, ?_, ?_⟩
  · simp [rate_cmd, hbot, hne, hlt]
  · simp [rate_cmd, hbot, hne, hlt]
  · simp [rate_cmd, hbot, hne, hlt, set_rating, lookupTab_upsertTab_self]

/-- Witness for the amended C4: actor 1 rates target 2 twice in a row. -/
theorem c4_amended_witness :
    ((⟨2, false, 50⟩ : DUser).bot = false) ∧
    ((⟨2, false, 50⟩ : DUser).id ≠ (⟨1, false, 100⟩ : DUser).id) ∧
    MIN_RATING_ACCOUNT_AGE_DAYS ≤ (⟨1, false, 100⟩ : DUser).age_days ∧
    ((rate_cmd ⟨[], [], []⟩ ⟨1, false, 100⟩ ⟨2, false, 50⟩ 5).1 = CmdResult.ok ∧
     (rate_cmd (rate_cmd ⟨[], [], []⟩ ⟨1, false, 100⟩ ⟨2, false, 50⟩ 5).2
         ⟨1, false, 100⟩ ⟨2, false, 50⟩ 4).1 = CmdResult.ok ∧
     lookupTab (rate_cmd (rate_cmd ⟨[], [], []⟩ ⟨1, false, 100⟩ ⟨2, false, 50⟩ 5).2
         ⟨1, false, 100⟩ ⟨2, false, 50⟩ 4).2.ratings (1, 2) = some 4) :=
  ⟨rfl, by decide, by decide,
   c4_amended ⟨[], [], []⟩ ⟨1, false, 100⟩ ⟨2, false, 50⟩ 5 4 rfl (by decide) (by decide)⟩

/-- Counterexample to claim C5: a validation failure does not leave every
piece of state untouched — a self-targeted `/rep` is rejected with no ledger
or rating write, but the per-actor cooldown bucket maintained by the
`checks.cooldown` decorator has already been consumed by the time the body
rejects, so the cooldown state changed. -/
theorem c5_counterexample :
    (rep_cmd ⟨[], [], []⟩ 0 ⟨1, false, 100⟩ ⟨1, false, 100⟩).1 = CmdResult.invalidTarget ∧
    (rep_cmd ⟨[], [], []⟩ 0 ⟨1, false, 100⟩ ⟨1, false, 100⟩).2.reputation = [] ∧
    (rep_cmd ⟨[], [], []⟩ 0 ⟨1, false, 100⟩ ⟨1, false, 100⟩).2.ratings = [] ∧
    (rep_cmd ⟨[], [], []⟩ 0 ⟨1, false, 100⟩ ⟨1, false, 100⟩).2.cooldowns = [(("rep", 1), 0)] ∧
    (rep_cmd ⟨[], [], []⟩ 0 ⟨1, false, 100⟩ ⟨1, false, 100⟩).2.cooldowns
      ≠ BotState.cooldowns ⟨[], [], []⟩ := by
  refine ⟨by decide, by decide, by decide, by decide, by decide⟩

/-- Claim C5 as amended: on an invalid target (bot or self) every command
returns a rejection and writes neither the reputation ledger nor the ratings
table; `/rate`, which has no cooldown, leaves the whole state unchanged,
while for `/rep` and `/norep` the framework's per-actor cooldown bucket may
already have been consumed before the body rejected. -/
theorem c5_amended (st : BotState) (now : ℤ) (actor target : DUser) (stars : ℤ)
    (hinv : target.bot = true ∨ target.id = actor.id) :
    ((rep_cmd st now actor target).2.reputation = st.reputation ∧
     (rep_cmd st now actor target).2.ratings = st.ratings ∧
     ((rep_cmd st now actor target).1 = CmdResult.invalidTarget ∨
      ∃ r, (rep_cmd st now actor target).1 = CmdResult.onCooldown r)) ∧
    ((norep_cmd st now actor target).2.reputation = st.reputation ∧
     (norep_cmd st now actor target).2.ratings = st.ratings ∧
     ((norep_cmd st now actor target).1 = CmdResult.invalidTarget ∨
      ∃ r, (norep_cmd st now actor target).1 = CmdResult.onCooldown r)) ∧
    rate_cmd st actor target stars = (CmdResult.invalidTarget, st) := by
  have hcond : (target.bot || target.id == actor.id) = true := by
    rcases hinv with h | h
    · simp [h]
    · simp [h]
  refine ⟨?_, ?_, ?_⟩
  · cases hlk : lookupTab st.cooldowns ("rep", actor.id) with
    | none => simp [rep_cmd, cooldown_check, hlk, hcond]
    | some w =>
      by_cases hw : w + COOLDOWN_PER < now
      · simp [rep_cmd, cooldown_check, hlk, hw, hcond]
      · simp [rep_cmd, cooldown_check, hlk, hw, hcond]
  · cases hlk : lookupTab st.cooldowns ("norep", actor.id) with
    | none => simp [norep_cmd, cooldown_check, hlk, hcond]
    | some w =>
      by_cases hw : w + COOLDOWN_PER < now
      · simp [norep_cmd, cooldown_check, hlk, hw, hcond]
      · simp [norep_cmd, cooldown_check, hlk, hw, hcond]
  · simp [rate_cmd, hcond]

/-- Witness for the amended C5: a self-targeted call on a fresh state. -/
theorem c5_amended_witness :
    ((⟨1, false, 100⟩ : DUser).bot = true ∨
     (⟨1, false, 100⟩ : DUser).id = (⟨1, false, 100⟩ : DUser).id) ∧
    ((rep_cmd ⟨[], [], []⟩ 0 ⟨1, false, 100⟩ ⟨1, false, 100⟩).2.reputation
        = BotState.reputation ⟨[], [], []⟩ ∧
     (rep_cmd ⟨[], [], []⟩ 0 ⟨1, false, 100⟩ ⟨1, false, 100⟩).2.ratings
        = BotState.ratings ⟨[], [], []⟩ ∧
     ((rep_cmd ⟨[], [], []⟩ 0 ⟨1, false, 100⟩ ⟨1, false, 100⟩).1 = CmdResult.invalidTarget ∨
      ∃ r, (rep_cmd ⟨[], [], []⟩ 0 ⟨1, false, 100⟩ ⟨1, false, 100⟩).1
        = CmdResult.onCooldown r)) ∧
    rate_cmd ⟨[], [], []⟩ ⟨1, false, 100⟩ ⟨1, false, 100⟩ 5
      = (CmdResult.invalidTarget, ⟨[], [], []⟩) := by
  have h := c5_amended ⟨[], [], []⟩ 0 ⟨1, false, 100⟩ ⟨1, false, 100⟩ 5 (Or.inr rfl)
  exact ⟨Or.inr rfl, h.1, h.2.2⟩

/-- Counterexample to claim C3: the export of the ledger \x7b7 ↦ 12\x7d maps
the key "7" to the bare integer 12, not to an object of the form
`\x7b"rep": _, "neg_rep": _\x7d`. -/
theorem c3_counterexample :
    exportrep [(7, 12)] = [("7", JsonVal.int 12)] ∧
    JsonVal.isObj (JsonVal.int 12) = false := by
  constructor
  · decide
  · rfl

/-- Claim C3 as amended: export produces a JSON object mapping the decimal
string of each account id to its bare integer `rep` (the ledger holds no
separate negative counter), and importing that object — import itself is
spec-modelled, it is absent from src/ — into an empty ledger reproduces the
`rep` of every account. -/
theorem c3_amended (tbl : List (ℕ × ℤ)) (hnd : (tbl.map Prod.fst).Nodup) (u : ℕ) :
    get_rep (importrep (exportrep tbl)).1 u = get_rep tbl u := by
  rw [importrep_exportrep]
  rw [get_rep_foldl_upsert tbl [] u hnd]
  by_cases hmem : u ∈ tbl.map Prod.fst
  · simp [hmem]
  · simp [hmem, get_rep, lookupTab_eq_none_of_not_mem _ _ hmem, lookupTab]

/-- Witness for the amended C3 on the two-account ledger \x7b7 ↦ 12, 3 ↦ 5\x7d. -/
theorem c3_witness :
    ((([(7, 12), (3, 5)] : List (ℕ × ℤ)).map Prod.fst).Nodup) ∧
    get_rep (importrep (exportrep [(7, 12), (3, 5)])).1 7 = get_rep [(7, 12), (3, 5)] 7 :=
  ⟨by decide, c3_amended [(7, 12), (3, 5)] (by decide) 7⟩

end RepBot
